import Mathlib

/-!
Shallow embedding of `src/index.js` of the serverless-athena-plugin:
a plugin that validates Athena table definitions from configuration,
renders DDL (inline or file-sourced, with placeholder substitution),
submits it to the Athena query service and polls the execution to a
terminal state, sequencing multiple tables one at a time.

Remote calls are modelled by an explicit environment (`Env`) and every
operation returns, next to its outcome, the trace of query submissions
it performed, so that call-order and "no query was attempted" claims
are statements about the returned trace.
-/

namespace AthenaPlugin

/-- JS truthiness of an optional string field: `undefined` and the empty
string are falsy (`!table.DDLFile` in the source). -/
def present : Option String → Bool
  | none => false
  | some s => s ≠ ""

/-- Rendering of an optional string in a JS template literal:
`undefined` prints as `"undefined"`. -/
def jsStr : Option String → String
  | none => "undefined"
  | some s => s

/-- A table definition, one entry of `custom.athenaTables`
(duck-typed optional fields in the source). -/
structure AthenaTable where
  DDLFile : Option String
  DDL : Option String
  OutputLocation : Option String
  TableName : Option String
  DatabaseName : Option String
  DDLSubstitutions : Option (List (String × String))
deriving DecidableEq, Repr

/-- Parameters of `athena.startQueryExecution` as built by the source
(`QueryString`, `ResultConfiguration.OutputLocation`, optionally
`QueryExecutionContext.Database`). -/
structure QueryParams where
  QueryString : String
  OutputLocation : Option String
  QueryExecutionContext : Option String
deriving DecidableEq, Repr

/-- Outcome of a finished poll: `resolve(id)` or `reject(message)`
(`waitForAthenaQuery`, src/index.js lines 74-94). -/
inductive PollResult where
  | resolved (id : String)
  | rejected (msg : String)
deriving DecidableEq, Repr

/-- What one status check does: the body of the `switch` on
`response.QueryExecution.Status.State` in `waitForAthenaQuery`
(src/index.js lines 79-90).  `SUCCEEDED` resolves with the id;
`RUNNING`/`QUEUED` schedule a re-check after 1000 ms; `FAILED`,
`CANCELLED` and the `default` branch reject with the observed state. -/
inductive PollAction where
  | resolve (id : String)
  | wait (delayMs : Nat)
  | reject (msg : String)
deriving DecidableEq, Repr

def pollStep (id state : String) : PollAction :=
  if state = "SUCCEEDED" then .resolve id
  else if state = "RUNNING" ∨ state = "QUEUED" then .wait 1000
  else .reject ("Query status " ++ state)

/-- `waitForAthenaQuery` run against a finite trace of observed states
(the successive answers of `getQueryExecution`).  Returns the final
outcome together with the number of status checks performed, or `none`
when the trace is exhausted while the poller is still re-checking. -/
def waitForAthenaQuery (id : String) : List String → Option (PollResult × Nat)
  | [] => none
  | s :: rest =>
    match pollStep id s with
    | .resolve i => some (.resolved i, 1)
    | .reject m => some (.rejected m, 1)
    | .wait _ =>
      match waitForAthenaQuery id rest with
      | none => none
      | some (r, n) => some (r, n + 1)

/-- `validateAthenaTable` (src/index.js lines 104-125): `.error` is a
thrown `serverless.classes.Error`; `.ok` carries the list of warnings
logged (a warning when `DatabaseName` is absent).  Validation is pure by
construction: it takes no environment and can submit no query. -/
def validateAthenaTable (tableName : String) (table : AthenaTable) :
    Except String (List String) :=
  if !(present table.DDLFile) && !(present table.DDL) then
    .error ("Definition for Athena table " ++ tableName ++
      " must include one of a DDLFile or DDL entry.")
  else if present table.DDLFile && present table.DDL then
    .error ("Definition for Athena table " ++ tableName ++
      " must include one of a DDLFile or DDL entry, not both.")
  else if !(present table.OutputLocation) then
    .error ("Definition for Athena table " ++ tableName ++
      " must include OutputLocation.")
  else if !(present table.TableName) then
    .error ("Definition for Athena table " ++ tableName ++
      " must include TableName to allow dropping the table on remove.")
  else if !(present table.DatabaseName) then
    .ok ["Warning: Athena table " ++ tableName ++
      " definition does not include DatabaseName; default database will be used"]
  else
    .ok []

/-! ### JS `String.prototype.replace` with a string pattern

`modifiedDDL.replace('{' + token + '}', value)` (src/index.js line 256)
replaces the first occurrence of the pattern, and the replacement string
is interpreted per ECMAScript GetSubstitution: with a string pattern
there are no capture groups, so only the patterns dollar-dollar (a
literal dollar), dollar-ampersand (the matched substring),
dollar-backquote (the text before the match) and dollar-quote (the text
after the match) are special; everything else is copied literally. -/

/-- ECMAScript GetSubstitution for a string pattern (no capture groups):
expand the replacement text given the matched substring and the text
before and after the match. -/
def getSubstitution (matched before after : List Char) : List Char → List Char
  | [] => []
  | [c] => [c]
  | c :: d :: rest =>
    if c = '$' then
      if d = '$' then '$' :: getSubstitution matched before after rest
      else if d = '&' then matched ++ getSubstitution matched before after rest
      else if d = Char.ofNat 96 then before ++ getSubstitution matched before after rest
      else if d = Char.ofNat 39 then after ++ getSubstitution matched before after rest
      else c :: getSubstitution matched before after (d :: rest)
    else c :: getSubstitution matched before after (d :: rest)

/-- Index of the first occurrence of `pat` in a list (JS `indexOf`). -/
def findSub (pat : List Char) : List Char → Option Nat
  | [] => if pat = [] then some 0 else none
  | s@(_ :: rest) =>
    if pat.isPrefixOf s then some 0
    else
      match findSub pat rest with
      | none => none
      | some n => some (n + 1)

/-- JS `s.replace(pat, rep)` with string arguments: replace the first
occurrence of `pat` by the expansion of `rep`; if `pat` does not occur,
return `s` unchanged. -/
def jsReplaceFirstList (s pat rep : List Char) : List Char :=
  match findSub pat s with
  | none => s
  | some i =>
    s.take i ++ getSubstitution pat (s.take i) (s.drop (i + pat.length)) rep
      ++ s.drop (i + pat.length)

def jsReplaceFirst (s pat rep : String) : String :=
  String.mk (jsReplaceFirstList s.data pat.data rep.data)

/-- The `reduce` over `Object.entries(table.DDLSubstitutions)`
(src/index.js lines 254-256): apply each `(token, value)` entry in
mapping order, each replacing the first occurrence of the braced token. -/
def applySubstitutions (subs : List (String × String)) (ddl : String) : String :=
  subs.foldl (fun acc kv => jsReplaceFirst acc ("\x7b" ++ kv.1 ++ "\x7d") kv.2) ddl

/-- The substitution stage of `createAthenaTable` (src/index.js lines
252-259): `if (table.DDLSubstitutions)` — an object, even empty, is
truthy in JS, so the branch is taken exactly when the field is set;
otherwise the DDL text passes through unchanged. -/
def applyDDLSubstitutions (table : AthenaTable) (ddl : String) : String :=
  match table.DDLSubstitutions with
  | some subs => applySubstitutions subs ddl
  | none => ddl

/-! ### The remote environment and the table operations -/

/-- The external collaborators: the file system (`readFile`), query
submission (`athena.startQueryExecution`, returning an execution id or
a submission error), and the successive execution states the service
reports for an id (`athena.getQueryExecution`, consumed by the poller). -/
structure Env where
  readFile : String → Except String String
  startQueryExecution : QueryParams → Except String String
  getStates : String → List String

/-- Submit a query and poll it to a terminal state: `startQueryExecution
... .then(r => this.waitForAthenaQuery(r.QueryExecutionId))`.  `none`
means the poller never observed a terminal state within the trace. -/
def runQuery (env : Env) (p : QueryParams) : Option (Except String String) :=
  match env.startQueryExecution p with
  | .error e => some (.error e)
  | .ok id =>
    match waitForAthenaQuery id (env.getStates id) with
    | none => none
    | some (.resolved i, _) => some (.ok i)
    | some (.rejected m, _) => some (.error m)

/-- The parameters `deleteAthenaTable` builds (src/index.js lines
296-302).  With `ifExists = false` the template yields two consecutive
spaces: `DROP TABLE  name`. -/
def deleteParams (table : AthenaTable) (ifExists : Bool) : QueryParams where
  QueryString := "DROP TABLE " ++ (if ifExists then "IF EXISTS" else "")
    ++ " " ++ jsStr table.TableName
  OutputLocation := table.OutputLocation
  QueryExecutionContext :=
    if present table.DatabaseName then table.DatabaseName else none

/-- The JS default parameter `ifExists = false` (src/index.js line 295),
used at every call site that omits the third argument. -/
def deleteIfExistsDefault : Bool := false

/-- `deleteAthenaTable` (src/index.js lines 295-306): submit the DROP
query and poll it to terminal.  Next to the outcome we return the trace
of query submissions performed. -/
def deleteAthenaTable (env : Env) (tableName : String) (table : AthenaTable)
    (ifExists : Bool) : Option (Except String String) × List QueryParams :=
  let _ := tableName   -- used only in the log message
  (runQuery env (deleteParams table ifExists), [deleteParams table ifExists])

/-- The parameters of the create submission (src/index.js lines
261-267), built from the substituted DDL text. -/
def createParams (table : AthenaTable) (ddl : String) : QueryParams where
  QueryString := applyDDLSubstitutions table ddl
  OutputLocation := table.OutputLocation
  QueryExecutionContext :=
    if present table.DatabaseName then table.DatabaseName else none

/-- `createAthenaTable` (src/index.js lines 243-272): validate, drop
with IF EXISTS, resolve the DDL text (file-sourced or inline; after
validation exactly one source is present), apply substitutions, submit
the create query and poll it to terminal.  A rejection at any stage
skips the following stages. -/
def createAthenaTable (env : Env) (tableName : String) (table : AthenaTable) :
    Option (Except String String) × List QueryParams :=
  match validateAthenaTable tableName table with
  | .error e => (some (.error e), [])
  | .ok _ =>
    match deleteAthenaTable env tableName table true with
    | (none, tr) => (none, tr)
    | (some (.error e), tr) => (some (.error e), tr)
    | (some (.ok _), tr) =>
      let ddlRes : Except String String :=
        if present table.DDLFile then env.readFile (jsStr table.DDLFile)
        else .ok (jsStr table.DDL)
      match ddlRes with
      | .error e => (some (.error e), tr)
      | .ok ddl => (runQuery env (createParams table ddl), tr ++ [createParams table ddl])

/-- Bluebird's `Promise.map(items, mapper, \x7bconcurrency: 1\x7d)`: the
items are processed strictly one after another in order, and the first
rejection settles the whole map, so later items are never started. -/
def mapSeq (f : α → Option (Except String String) × List QueryParams) :
    List α → Option (Except String Unit) × List QueryParams
  | [] => (some (.ok ()), [])
  | x :: rest =>
    match f x with
    | (none, tr) => (none, tr)
    | (some (.error e), tr) => (some (.error e), tr)
    | (some (.ok _), tr) =>
      match mapSeq f rest with
      | (r, tr2) => (r, tr ++ tr2)

/-- `createAthenaTables` (src/index.js lines 228-235). -/
def createAthenaTables (env : Env) (tables : List (String × AthenaTable)) :
    Option (Except String Unit) × List QueryParams :=
  mapSeq (fun e => createAthenaTable env e.1 e.2) tables

/-- `deleteAthenaTables` (src/index.js lines 279-286); the call
`this.deleteAthenaTable(...tableEntry)` passes two arguments, so
`ifExists` takes its default. -/
def deleteAthenaTables (env : Env) (tables : List (String × AthenaTable)) :
    Option (Except String Unit) × List QueryParams :=
  mapSeq (fun e => deleteAthenaTable env e.1 e.2 deleteIfExistsDefault) tables

/-- Bluebird's `Promise.all` takes a single iterable argument; any
second argument at a call site is ignored by JS, and an iterable of
non-promise values resolves immediately with those values. -/
def promiseAll (xs : List α) (_extraArg : α → β) : List α := xs

/-- `validateAthenaTablesGlobal` (src/index.js lines 132-139), the
`before:deploy:deploy` hook.  The source calls
`Promise.all(Object.entries(athenaTables), mapper)`: `Promise.all` takes
one argument, so the mapper is discarded without ever being invoked and
the entries array resolves as-is — the hook never rejects. -/
def validateAthenaTablesGlobal (tables : List (String × AthenaTable)) :
    Except String Unit :=
  if tables.length > 0 then
    let _ := promiseAll tables (fun e => validateAthenaTable e.1 e.2)
    .ok ()
  else .ok ()

/-- What the spec says the global validation hook does (modelled from
the spec for comparison with `validateAthenaTablesGlobal`): run the
per-table validation on every definition and fail when any fails. -/
def validateAllSpec (tables : List (String × AthenaTable)) : Except String Unit :=
  match tables with
  | [] => .ok ()
  | e :: rest =>
    match validateAthenaTable e.1 e.2 with
    | .error msg => .error msg
    | .ok _ => validateAllSpec rest

/-- JS `athenaTables[name]` on the configuration mapping. -/
def lookupTable (tables : List (String × AthenaTable)) (name : String) :
    Option AthenaTable :=
  tables.lookup name

/-- `deployAthenaTablesDeploy` (src/index.js lines 172-193), the
`deploy:athenatables:deploy` command.  When the `table` option is set
but absent from the mapping, the rejection message interpolates the
variable `table` — the result of the failed lookup, i.e. `undefined` —
not `this.options.table`. -/
def deployAthenaTablesDeploy (env : Env) (optionsTable : Option String)
    (tables : List (String × AthenaTable)) :
    Option (Except String Unit) × List QueryParams :=
  if present optionsTable then
    match lookupTable tables (jsStr optionsTable) with
    | some table =>
      match createAthenaTable env (jsStr optionsTable) table with
      | (none, tr) => (none, tr)
      | (some (.error e), tr) => (some (.error e), tr)
      | (some (.ok _), tr) => (some (.ok ()), tr)
    | none => (some (.error ("Athena table not found: " ++ "undefined")), [])
  else if tables.length > 0 then createAthenaTables env tables
  else (some (.ok ()), [])

/-- `removeAthenaTablesRemove` (src/index.js lines 200-221), the
`remove:athenatables:remove` command; same not-found interpolation slip
as the deploy command, and the per-table delete passes two arguments so
`ifExists` takes its default. -/
def removeAthenaTablesRemove (env : Env) (optionsTable : Option String)
    (tables : List (String × AthenaTable)) :
    Option (Except String Unit) × List QueryParams :=
  if present optionsTable then
    match lookupTable tables (jsStr optionsTable) with
    | some table =>
      match deleteAthenaTable env (jsStr optionsTable) table deleteIfExistsDefault with
      | (none, tr) => (none, tr)
      | (some (.error e), tr) => (some (.error e), tr)
      | (some (.ok _), tr) => (some (.ok ()), tr)
    | none => (some (.error ("Athena table not found: " ++ "undefined")), [])
  else if tables.length > 0 then deleteAthenaTables env tables
  else (some (.ok ()), [])

/-- `true` when `pat` occurs as a contiguous substring of `s`. -/
def containsSub (s pat : String) : Bool :=
  (findSub pat.data s.data).isSome

/-! ### Concrete tables and environment used to exercise the theorems -/

/-- A valid definition with inline DDL. -/
def tblOk : AthenaTable where
  DDLFile := none
  DDL := some "CREATE EXTERNAL TABLE good"
  OutputLocation := some "s3://bucket/out/"
  TableName := some "good"
  DatabaseName := some "db"
  DDLSubstitutions := none

/-- A valid definition whose create DDL the mock service rejects at
submission. -/
def tblBad : AthenaTable where
  DDLFile := none
  DDL := some "FAILQ"
  OutputLocation := some "s3://bucket/out/"
  TableName := some "bad"
  DatabaseName := some "db"
  DDLSubstitutions := none

/-- An invalid definition: every field absent. -/
def tblInvalid : AthenaTable where
  DDLFile := none
  DDL := none
  OutputLocation := none
  TableName := none
  DatabaseName := none
  DDLSubstitutions := none

/-- A mock environment: any file reads fine, every submission succeeds
except the query text `FAILQ`, and every execution succeeds on its
first status check. -/
def envW : Env where
  readFile := fun _ => .ok "CREATE EXTERNAL TABLE filetable"
  startQueryExecution := fun p =>
    if p.QueryString = "FAILQ" then .error "submit failed" else .ok "qid"
  getStates := fun _ => ["SUCCEEDED"]

/-! ### Theorems -/

/-- C1.  On each status check the poller resolves with the execution id
on SUCCEEDED, rejects carrying the observed state on FAILED/CANCELLED
with no further checks, and on RUNNING/QUEUED re-checks after the fixed
1000 ms (1 second) delay; the sequence QUEUED, RUNNING, SUCCEEDED
resolves after exactly 3 checks, and FAILED on the first check rejects
after exactly 1 check. -/
theorem waitForAthenaQuery_per_check_behaviour (id : String)
    (rest states : List String) :
    waitForAthenaQuery id ("SUCCEEDED" :: rest) = some (.resolved id, 1)
    ∧ waitForAthenaQuery id ("FAILED" :: rest) =
        some (.rejected ("Query status " ++ "FAILED"), 1)
    ∧ waitForAthenaQuery id ("CANCELLED" :: rest) =
        some (.rejected ("Query status " ++ "CANCELLED"), 1)
    ∧ pollStep id "RUNNING" = .wait 1000
    ∧ pollStep id "QUEUED" = .wait 1000
    ∧ waitForAthenaQuery id ("RUNNING" :: states) =
        (waitForAthenaQuery id states).map (fun p => (p.1, p.2 + 1))
    ∧ waitForAthenaQuery id ("QUEUED" :: states) =
        (waitForAthenaQuery id states).map (fun p => (p.1, p.2 + 1))
    ∧ waitForAthenaQuery id ["QUEUED", "RUNNING", "SUCCEEDED"] =
        some (.resolved id, 3) := by
  refine ⟨rfl, rfl, rfl, rfl, rfl, ?_, ?_, rfl⟩ <;>
    · show (match waitForAthenaQuery id states with
        | none => none
        | some (r, n) => some (r, n + 1)) =
        (waitForAthenaQuery id states).map (fun p => (p.1, p.2 + 1))
      cases waitForAthenaQuery id states with
      | none => rfl
      | some p => rfl

/-- C10.  Any observed state outside SUCCEEDED/RUNNING/QUEUED — in
particular any state other than the five documented ones — hits the
`default` branch and rejects on that very check; the loop can only
continue past the first check when the state is RUNNING or QUEUED. -/
theorem waitForAthenaQuery_default_rejects (id s : String)
    (rest : List String) :
    (s ≠ "SUCCEEDED" → s ≠ "RUNNING" → s ≠ "QUEUED" →
      pollStep id s = .reject ("Query status " ++ s)
      ∧ waitForAthenaQuery id (s :: rest) =
          some (.rejected ("Query status " ++ s), 1))
    ∧ (s = "RUNNING" ∨ s = "QUEUED"
        ∨ ∃ r, waitForAthenaQuery id (s :: rest) = some (r, 1)) := by
  constructor
  · intro h1 h2 h3
    have hstep : pollStep id s = .reject ("Query status " ++ s) := by
      simp [pollStep, h1, h2, h3]
    refine ⟨hstep, ?_⟩
    simp [waitForAthenaQuery, hstep]
  · by_cases h2 : s = "RUNNING"
    · exact Or.inl h2
    by_cases h3 : s = "QUEUED"
    · exact Or.inr (Or.inl h3)
    by_cases h1 : s = "SUCCEEDED"
    · subst h1
      exact Or.inr (Or.inr ⟨.resolved id, rfl⟩)
    · refine Or.inr (Or.inr ⟨.rejected ("Query status " ++ s), ?_⟩)
      have hstep : pollStep id s = .reject ("Query status " ++ s) := by
        simp [pollStep, h1, h2, h3]
      simp [waitForAthenaQuery, hstep]

/-- Witness for C10 at the undocumented state `BOGUS`. -/
theorem waitForAthenaQuery_default_rejects_witness :
    pollStep "q" "BOGUS" = .reject ("Query status " ++ "BOGUS")
    ∧ waitForAthenaQuery "q" ["BOGUS"] =
        some (.rejected ("Query status " ++ "BOGUS"), 1) :=
  (waitForAthenaQuery_default_rejects "q" "BOGUS" []).1
    (by decide) (by decide) (by decide)

/-- Two strings with a common left part and right parts of different
lengths differ. -/
theorem string_append_left_ne {a n m : String} (h : n.length ≠ m.length) :
    a ++ n ≠ a ++ m := by
  intro he
  apply h
  have hl := congrArg String.length he
  simp only [String.length_append] at hl
  omega

/-- Two strings with left parts of different lengths and a common right
part differ. -/
theorem string_append_right_ne {a b n : String} (h : a.length ≠ b.length) :
    a ++ n ≠ b ++ n := by
  intro he
  apply h
  have hl := congrArg String.length he
  simp only [String.length_append] at hl
  omega

/-- C6.  `validateAthenaTable` rejects when neither inline DDL nor a DDL
file is present, rejects with a distinct message when both are present,
rejects when `OutputLocation` is missing, rejects when `TableName` is
missing, and accepts a definition missing only `DatabaseName` with just
the logged warning.  No remote call can occur: the function takes no
environment and returns without submitting anything. -/
theorem validateAthenaTable_cases (name : String) (table : AthenaTable) :
    (present table.DDLFile = false → present table.DDL = false →
      validateAthenaTable name table = .error ("Definition for Athena table "
        ++ name ++ " must include one of a DDLFile or DDL entry."))
    ∧ (present table.DDLFile = true → present table.DDL = true →
      validateAthenaTable name table = .error ("Definition for Athena table "
        ++ name ++ " must include one of a DDLFile or DDL entry, not both."))
    ∧ ("Definition for Athena table " ++ name
        ++ " must include one of a DDLFile or DDL entry.")
      ≠ ("Definition for Athena table " ++ name
        ++ " must include one of a DDLFile or DDL entry, not both.")
    ∧ (present table.OutputLocation = false →
        ∃ e, validateAthenaTable name table = .error e)
    ∧ (present table.TableName = false →
        ∃ e, validateAthenaTable name table = .error e)
    ∧ (present table.DDLFile ≠ present table.DDL →
       present table.OutputLocation = true → present table.TableName = true →
       present table.DatabaseName = false →
      validateAthenaTable name table = .ok ["Warning: Athena table " ++ name
        ++ " definition does not include DatabaseName; default database will be used"]) := by
  refine ⟨?_, ?_, ?_, ?_, ?_, ?_⟩
  · intro hf hd
    simp [validateAthenaTable, hf, hd]
  · intro hf hd
    simp [validateAthenaTable, hf, hd]
  · exact string_append_left_ne (by decide)
  · intro hout
    cases hf : present table.DDLFile <;> cases hd : present table.DDL <;>
      simp [validateAthenaTable, hf, hd, hout]
  · intro htn
    cases hf : present table.DDLFile <;> cases hd : present table.DDL <;>
      cases hout : present table.OutputLocation <;>
      simp [validateAthenaTable, hf, hd, hout, htn]
  · intro hx hout htn hdb
    cases hf : present table.DDLFile <;> cases hd : present table.DDL
    · simp [hf, hd] at hx
    · simp [validateAthenaTable, hf, hd, hout, htn, hdb]
    · simp [validateAthenaTable, hf, hd, hout, htn, hdb]
    · simp [hf, hd] at hx

/-- Witness for C6: each clause exercised on a concrete definition. -/
theorem validateAthenaTable_cases_witness :
    validateAthenaTable "t" tblInvalid = .error ("Definition for Athena table "
      ++ "t" ++ " must include one of a DDLFile or DDL entry.")
    ∧ validateAthenaTable "t"
        { tblOk with DDLFile := some "f.sql" } = .error ("Definition for Athena table "
      ++ "t" ++ " must include one of a DDLFile or DDL entry, not both.")
    ∧ (∃ e, validateAthenaTable "t"
        { tblOk with OutputLocation := none } = .error e)
    ∧ (∃ e, validateAthenaTable "t"
        { tblOk with TableName := none } = .error e)
    ∧ validateAthenaTable "t"
        { tblOk with DatabaseName := none } = .ok ["Warning: Athena table "
      ++ "t" ++ " definition does not include DatabaseName; default database will be used"] := by
  refine ⟨?_, ?_, ?_, ?_, ?_⟩
  · exact (validateAthenaTable_cases "t" tblInvalid).1 rfl rfl
  · exact (validateAthenaTable_cases "t"
      { tblOk with DDLFile := some "f.sql" }).2.1 rfl rfl
  · exact (validateAthenaTable_cases "t"
      { tblOk with OutputLocation := none }).2.2.2.1 rfl
  · exact (validateAthenaTable_cases "t"
      { tblOk with TableName := none }).2.2.2.2.1 rfl
  · exact (validateAthenaTable_cases "t"
      { tblOk with DatabaseName := none }).2.2.2.2.2 (by decide) rfl rfl rfl

/-- C9.  `createAthenaTable` re-runs per-definition validation first:
when validation fails, the create rejects with that very error and the
submission trace is empty — no remote call is made for that table. -/
theorem createAthenaTable_validates_first (env : Env) (name : String)
    (table : AthenaTable) (e : String)
    (h : validateAthenaTable name table = .error e) :
    createAthenaTable env name table = (some (.error e), []) := by
  simp [createAthenaTable, h]

/-- Witness for C9 on the all-fields-absent definition. -/
theorem createAthenaTable_validates_first_witness :
    validateAthenaTable "t" tblInvalid = .error ("Definition for Athena table "
      ++ "t" ++ " must include one of a DDLFile or DDL entry.")
    ∧ createAthenaTable envW "t" tblInvalid = (some (.error ("Definition for Athena table "
      ++ "t" ++ " must include one of a DDLFile or DDL entry.")), []) :=
  ⟨rfl, createAthenaTable_validates_first envW "t" tblInvalid _ rfl⟩

/-- C2 (divergence witness).  One invalid definition: the per-table
validator rejects it, and the spec-level batch validation fails, but
the `before:deploy:deploy` hook `validateAthenaTablesGlobal` resolves —
the source passes its mapper as a second argument to Bluebird's
one-argument `Promise.all`, so no per-table validation ever runs. -/
theorem validateAthenaTablesGlobal_never_rejects :
    validateAthenaTable "badtable" tblInvalid =
      .error ("Definition for Athena table " ++ "badtable"
        ++ " must include one of a DDLFile or DDL entry.")
    ∧ validateAllSpec [("badtable", tblInvalid)] =
      .error ("Definition for Athena table " ++ "badtable"
        ++ " must include one of a DDLFile or DDL entry.")
    ∧ validateAthenaTablesGlobal [("badtable", tblInvalid)] = .ok () :=
  ⟨rfl, rfl, rfl⟩

/-- When every item succeeds, the sequential map succeeds and its trace
is the in-order concatenation of the per-item traces. -/
theorem mapSeq_all_ok (f : α → Option (Except String String) × List QueryParams) :
    ∀ xs : List α, (∀ x ∈ xs, ∃ v tr, f x = (some (.ok v), tr)) →
      mapSeq f xs = (some (.ok ()), (xs.map fun x => (f x).2).flatten)
  | [], _ => rfl
  | x :: rest, h => by
    obtain ⟨v, tr, hx⟩ := h x (List.mem_cons_self x rest)
    have ih := mapSeq_all_ok f rest (fun t ht => h t (List.mem_cons_of_mem x ht))
    simp [mapSeq, hx, ih]

/-- The first failing item settles the sequential map with its error,
and the trace is the in-order concatenation of the traces of the items
before it and of the failing item itself — nothing of the items after
it. -/
theorem mapSeq_append_fail (f : α → Option (Except String String) × List QueryParams)
    (x : α) (e : String) (trx : List QueryParams) :
    ∀ (pre : List α) (post : List α),
      (∀ t ∈ pre, ∃ v tr, f t = (some (.ok v), tr)) →
      f x = (some (.error e), trx) →
      mapSeq f (pre ++ x :: post) =
        (some (.error e), (pre.map fun t => (f t).2).flatten ++ trx)
  | [], post, _, hx => by simp [mapSeq, hx]
  | p :: pre, post, hpre, hx => by
    obtain ⟨v, tr, hp⟩ := hpre p (List.mem_cons_self p pre)
    have ih := mapSeq_append_fail f x e trx pre post
      (fun t ht => hpre t (List.mem_cons_of_mem p ht)) hx
    simp [mapSeq, hp, ih, hp]

/-- C4.  `createAthenaTables` and `deleteAthenaTables` process the
tables one at a time in mapping order: when every table succeeds the
submission trace is the in-order concatenation of the per-table traces,
and the first per-table failure settles the batch with that error while
the trace stops at the failing table — no query of any later table is
ever submitted, and the queries of the tables completed before the
failure stay in the trace untouched (no rollback query is added). -/
theorem batch_sequencing (env : Env) (pre post : List (String × AthenaTable))
    (x : String × AthenaTable) (e : String) (trx : List QueryParams) :
    ((∀ t ∈ pre, ∃ v tr, createAthenaTable env t.1 t.2 = (some (.ok v), tr)) →
      createAthenaTable env x.1 x.2 = (some (.error e), trx) →
      createAthenaTables env (pre ++ x :: post) =
        (some (.error e),
          (pre.map fun t => (createAthenaTable env t.1 t.2).2).flatten ++ trx))
    ∧ ((∀ t ∈ pre, ∃ v tr,
          deleteAthenaTable env t.1 t.2 deleteIfExistsDefault = (some (.ok v), tr)) →
      deleteAthenaTable env x.1 x.2 deleteIfExistsDefault = (some (.error e), trx) →
      deleteAthenaTables env (pre ++ x :: post) =
        (some (.error e),
          (pre.map fun t => (deleteAthenaTable env t.1 t.2 deleteIfExistsDefault).2).flatten
            ++ trx))
    ∧ (∀ tables : List (String × AthenaTable),
        (∀ t ∈ tables, ∃ v tr, createAthenaTable env t.1 t.2 = (some (.ok v), tr)) →
        createAthenaTables env tables =
          (some (.ok ()),
            (tables.map fun t => (createAthenaTable env t.1 t.2).2).flatten))
    ∧ (∀ tables : List (String × AthenaTable),
        (∀ t ∈ tables, ∃ v tr,
          deleteAthenaTable env t.1 t.2 deleteIfExistsDefault = (some (.ok v), tr)) →
        deleteAthenaTables env tables =
          (some (.ok ()),
            (tables.map fun t => (deleteAthenaTable env t.1 t.2 deleteIfExistsDefault).2).flatten)) := by
  refine ⟨?_, ?_, ?_, ?_⟩
  · intro hpre hx
    exact mapSeq_append_fail _ x e trx pre post hpre hx
  · intro hpre hx
    exact mapSeq_append_fail _ x e trx pre post hpre hx
  · intro tables h
    exact mapSeq_all_ok _ tables h
  · intro tables h
    exact mapSeq_all_ok _ tables h

/-- Witness for C4: with the mock service, the good table `a` succeeds,
`b` fails at its create submission, and the batch over `a`, `b`, `c`
settles with `b`'s error and a trace ending at `b`'s queries — `c` is
never attempted. -/
theorem batch_sequencing_witness :
    createAthenaTables envW ([("a", tblOk)] ++ ("b", tblBad) :: [("c", tblOk)]) =
      (some (.error "submit failed"),
        (([("a", tblOk)] : List (String × AthenaTable)).map
          fun t => (createAthenaTable envW t.1 t.2).2).flatten
          ++ (createAthenaTable envW "b" tblBad).2) := by
  refine (batch_sequencing envW [("a", tblOk)] [("c", tblOk)] ("b", tblBad)
      "submit failed" (createAthenaTable envW "b" tblBad).2).1 ?_ rfl
  intro t ht
  rw [List.mem_singleton] at ht
  subst ht
  exact ⟨"qid", _, rfl⟩

/-- The trace of `createAthenaTable` on a definition that passes
validation starts with the IF-EXISTS drop, and anything after it (the
create submission) happens only once that drop has reached terminal
success. -/
theorem createAthenaTable_trace_shape (env : Env) (name : String)
    (table : AthenaTable) (w : List String)
    (hv : validateAthenaTable name table = .ok w) :
    ∃ rest, (createAthenaTable env name table).2 = deleteParams table true :: rest
      ∧ (rest ≠ [] → ∃ id, runQuery env (deleteParams table true) = some (.ok id)) := by
  simp only [createAthenaTable, hv, deleteAthenaTable]
  cases hq : runQuery env (deleteParams table true) with
  | none => exact ⟨[], by simp, by simp⟩
  | some r =>
    cases r with
    | error e => exact ⟨[], by simp, by simp⟩
    | ok v =>
      cases hddl : (if present table.DDLFile
          then env.readFile (jsStr table.DDLFile) else .ok (jsStr table.DDL)) with
      | error e => exact ⟨[], by simp [hddl], by simp⟩
      | ok ddl =>
        refine ⟨[createParams table ddl], ?_, fun _ => ⟨v, rfl⟩⟩
        simp [hddl]

/-- C5.  On a definition that passes validation, `createAthenaTable`
always submits the `DROP TABLE IF EXISTS tableName` query first, and the
create query can only be submitted after that drop has been polled to
terminal success — the drop always precedes the create submission. -/
theorem createAthenaTable_drop_precedes_create (env : Env) (name : String)
    (table : AthenaTable) (w : List String)
    (hv : validateAthenaTable name table = .ok w) :
    (deleteParams table true).QueryString =
      "DROP TABLE IF EXISTS " ++ jsStr table.TableName
    ∧ ∃ rest, (createAthenaTable env name table).2 = deleteParams table true :: rest
      ∧ (rest ≠ [] → ∃ id, runQuery env (deleteParams table true) = some (.ok id)) :=
  ⟨rfl, createAthenaTable_trace_shape env name table w hv⟩

/-- Witness for C5 on the valid inline-DDL definition. -/
theorem createAthenaTable_drop_precedes_create_witness :
    (deleteParams tblOk true).QueryString =
      "DROP TABLE IF EXISTS " ++ jsStr tblOk.TableName
    ∧ ∃ rest, (createAthenaTable envW "a" tblOk).2 = deleteParams tblOk true :: rest
      ∧ (rest ≠ [] → ∃ id, runQuery envW (deleteParams tblOk true) = some (.ok id)) :=
  createAthenaTable_drop_precedes_create envW "a" tblOk [] rfl

/-- C7.  The DROP query reads `DROP TABLE IF EXISTS tableName` exactly
when the `ifExists` flag is `true`; the flag defaults to `false`; the
explicit top-level remove path submits its drop with the default (no
IF EXISTS), while the pre-clean drop inside `createAthenaTable` passes
`ifExists = true`. -/
theorem deleteAthenaTable_ifExists_semantics (env : Env) (name : String)
    (table : AthenaTable) :
    deleteIfExistsDefault = false
    ∧ (∀ b, (deleteParams table b).QueryString =
        "DROP TABLE IF EXISTS " ++ jsStr table.TableName ↔ b = true)
    ∧ deleteAthenaTable env name table deleteIfExistsDefault =
        (runQuery env (deleteParams table false), [deleteParams table false])
    ∧ (∀ (tables : List (String × AthenaTable)) (opt : Option String) (tbl : AthenaTable),
        present opt = true → lookupTable tables (jsStr opt) = some tbl →
        (removeAthenaTablesRemove env opt tables).2 = [deleteParams tbl false])
    ∧ (∀ w, validateAthenaTable name table = .ok w →
        (createAthenaTable env name table).2.head? = some (deleteParams table true)) := by
  refine ⟨rfl, ?_, rfl, ?_, ?_⟩
  · intro b
    cases b
    · refine iff_of_false ?_ (by decide)
      show "DROP TABLE " ++ (if false then "IF EXISTS" else "") ++ " "
          ++ jsStr table.TableName ≠ "DROP TABLE IF EXISTS " ++ jsStr table.TableName
      exact string_append_right_ne (by decide)
    · exact iff_of_true rfl rfl
  · intro tables opt tbl hopt hlk
    simp only [removeAthenaTablesRemove, hopt, if_true, hlk, deleteAthenaTable,
      deleteIfExistsDefault]
    cases hq : runQuery env (deleteParams tbl false) with
    | none => rfl
    | some r => cases r <;> rfl
  · intro w hv
    obtain ⟨rest, hr, -⟩ := createAthenaTable_trace_shape env name table w hv
    rw [hr]
    rfl

/-- Witness for C7: the remove command on a configured table submits
exactly the plain drop, and the create path's first submission is the
IF-EXISTS drop. -/
theorem deleteAthenaTable_ifExists_semantics_witness :
    (deleteParams tblOk true).QueryString =
      "DROP TABLE IF EXISTS " ++ jsStr tblOk.TableName
    ∧ (removeAthenaTablesRemove envW (some "a") [("a", tblOk)]).2 =
        [deleteParams tblOk false]
    ∧ (createAthenaTable envW "a" tblOk).2.head? = some (deleteParams tblOk true) := by
  have h := deleteAthenaTable_ifExists_semantics envW "a" tblOk
  exact ⟨(h.2.1 true).mpr rfl, h.2.2.2.1 [("a", tblOk)] (some "a") tblOk rfl rfl,
    h.2.2.2.2 [] rfl⟩

/-- C8 (divergence witness).  With the `table` option naming a table
absent from the configuration, both explicit commands reject without
submitting any query, but the rejection message interpolates the
`undefined` lookup result instead of the requested name: the message is
the constant `Athena table not found: undefined` and does not contain
the requested table name. -/
theorem table_not_found_message :
    deployAthenaTablesDeploy envW (some "mytable") [] =
      (some (.error ("Athena table not found: " ++ "undefined")), [])
    ∧ removeAthenaTablesRemove envW (some "mytable") [] =
      (some (.error ("Athena table not found: " ++ "undefined")), [])
    ∧ containsSub ("Athena table not found: " ++ "undefined") "mytable" = false :=
  ⟨rfl, rfl, by decide⟩

/-- A replacement text with no dollar character expands to itself. -/
theorem getSubstitution_of_no_dollar (matched before after : List Char) :
    ∀ rep : List Char, '$' ∉ rep →
      getSubstitution matched before after rep = rep := by
  intro rep
  induction rep with
  | nil => intro _; rfl
  | cons c rest ih =>
    intro h
    have hc : c ≠ '$' := fun hc => h (hc ▸ List.mem_cons_self c rest)
    cases rest with
    | nil => rfl
    | cons d rest2 =>
      have hrest : '$' ∉ d :: rest2 := fun hm => h (List.mem_cons_of_mem c hm)
      simp only [getSubstitution, if_neg hc]
      rw [ih hrest]

/-- `findSub` finds the first occurrence: the pattern occurs at the
returned index and at no earlier index. -/
theorem findSub_first (pat : List Char) :
    ∀ (s : List Char) (i : Nat), findSub pat s = some i →
      pat.isPrefixOf (s.drop i) = true
      ∧ ∀ j < i, pat.isPrefixOf (s.drop j) = false := by
  intro s
  induction s with
  | nil =>
    intro i h
    simp only [findSub] at h
    by_cases hp : pat = []
    · rw [if_pos hp] at h
      injection h with h
      subst h
      subst hp
      exact ⟨rfl, fun j hj => absurd hj (by omega)⟩
    · rw [if_neg hp] at h
      cases h
  | cons a rest ih =>
    intro i h
    simp only [findSub] at h
    cases hp : pat.isPrefixOf (a :: rest) with
    | true =>
      rw [hp] at h
      simp only [if_true] at h
      injection h with h
      subst h
      exact ⟨hp, fun j hj => absurd hj (by omega)⟩
    | false =>
      rw [hp] at h
      simp only [Bool.false_eq_true, if_false] at h
      cases hf : findSub pat rest with
      | none => rw [hf] at h; cases h
      | some n =>
        rw [hf] at h
        injection h with h
        subst h
        obtain ⟨h1, h2⟩ := ih n hf
        refine ⟨by simpa using h1, ?_⟩
        intro j hj
        cases j with
        | zero => simpa using hp
        | succ k => simpa using h2 k (by omega)

/-- C3 counterexample.  With the substitution value `$&` (a JS
replacement pattern standing for the matched substring), the code does
not insert the value: `a\x7bX\x7db` with the entry `(X, $&)` resolves
to `a\x7bX\x7db`, not to `a$&b` as replacing the occurrence with the
value would give. -/
theorem substitution_dollar_counterexample :
    applySubstitutions [("X", "$&")] "a\x7bX\x7db" = "a\x7bX\x7db"
    ∧ applyDDLSubstitutions { tblOk with DDLSubstitutions := some [("X", "$&")] }
        "a\x7bX\x7db" = "a\x7bX\x7db"
    ∧ applySubstitutions [("X", "$&")] "a\x7bX\x7db" ≠ "a$&b" :=
  ⟨by decide, by decide, by decide⟩

/-- C3 (amended).  DDL resolution applies the substitutions in mapping
order; each entry rewrites only the first literal occurrence of the
braced token — the text after that occurrence, later occurrences
included, is untouched — inserting the value as interpreted by JS
`String.prototype.replace` (for a value with no dollar character, the
value itself); with no substitutions mapping the DDL text round-trips
unchanged, as it does when the token does not occur. -/
theorem resolveDDL_substitution_semantics :
    (∀ (subs : List (String × String)) (kv : String × String) (ddl : String),
      applySubstitutions (kv :: subs) ddl =
        applySubstitutions subs (jsReplaceFirst ddl ("\x7b" ++ kv.1 ++ "\x7d") kv.2))
    ∧ (∀ (table : AthenaTable) (ddl : String), table.DDLSubstitutions = none →
        applyDDLSubstitutions table ddl = ddl)
    ∧ (∀ (s pat rep : String) (i : Nat), '$' ∉ rep.data →
        findSub pat.data s.data = some i →
        jsReplaceFirst s pat rep =
          String.mk (s.data.take i ++ rep.data
            ++ s.data.drop (i + pat.data.length)))
    ∧ (∀ s pat rep : String, findSub pat.data s.data = none →
        jsReplaceFirst s pat rep = s)
    ∧ (∀ (pat s : List Char) (i : Nat), findSub pat s = some i →
        pat.isPrefixOf (s.drop i) = true
        ∧ ∀ j < i, pat.isPrefixOf (s.drop j) = false) := by
  refine ⟨fun _ _ _ => rfl, ?_, ?_, ?_, fun pat s i h => findSub_first pat s i h⟩
  · intro table ddl h
    simp [applyDDLSubstitutions, h]
  · intro s pat rep i hd hf
    simp only [jsReplaceFirst, jsReplaceFirstList, hf,
      getSubstitution_of_no_dollar _ _ _ _ hd]
  · intro s pat rep hf
    simp only [jsReplaceFirst, jsReplaceFirstList, hf]

/-- Witness for the amended C3 on a text with two occurrences of the
token: only the first is rewritten. -/
theorem resolveDDL_substitution_semantics_witness :
    ('$' ∉ ("V" : String).data)
    ∧ findSub ("\x7bX\x7d" : String).data ("a\x7bX\x7db\x7bX\x7dc" : String).data
        = some 1
    ∧ jsReplaceFirst "a\x7bX\x7db\x7bX\x7dc" "\x7bX\x7d" "V" =
        String.mk (("a\x7bX\x7db\x7bX\x7dc" : String).data.take 1
          ++ ("V" : String).data
          ++ ("a\x7bX\x7db\x7bX\x7dc" : String).data.drop
              (1 + ("\x7bX\x7d" : String).data.length))
    ∧ jsReplaceFirst "a\x7bX\x7db\x7bX\x7dc" "\x7bX\x7d" "V" = "aVb\x7bX\x7dc" :=
  ⟨by decide, by decide,
    resolveDDL_substitution_semantics.2.2.1 _ _ _ 1 (by decide) (by decide),
    by decide⟩

end AthenaPlugin
